import Mathlib

set_option autoImplicit false

/-!
Verification development for the `vacuum-table` backup tool
(`main.go` and `api/api.go`, the later of the two observed revisions,
i.e. the one using the `v5.airtableusercontent.com` link host and the
identifier-based on-disk naming scheme).

Modelling conventions, used throughout:
* Go strings are modelled as Lean `String`.  `api.IsAirTableId` iterates the
  UTF-8 bytes of its argument; we model the string at the character level.
  For strings whose characters are all ASCII the two views are byte-for-byte
  identical; a string containing a non-ASCII character is rejected by both
  (its multi-byte UTF-8 encoding contains a byte outside every accepted
  range, and at the character level its codepoint is outside every accepted
  range), so the modelled function is extensionally the Go function.
* Dynamically typed JSON-decoded Go values (`interface` values produced by
  `encoding/json`) are modelled by the inductive `JValue`; JSON numbers
  decode to Go `float64` and are modelled as exact rationals (all numeric
  values appearing in the claims are exactly representable in `float64`).
* A Go `panic` is modelled as the `Except.error` branch of an
  `Except String` result, carrying the panic message.
* Go maps that the code only iterates or indexes are modelled as association
  lists; the iteration order of a Go map is part of the input in this model.
-/

namespace Api

/-- Model of a dynamically typed JSON-decoded Go value
(`interface` value as produced by `encoding/json`):
strings, numbers (Go `float64`, modelled as exact rationals), booleans,
null, sequences and string-keyed mappings. -/
inductive JValue : Type where
  | str : String → JValue
  | num : ℚ → JValue
  | boolean : Bool → JValue
  | null : JValue
  | arr : List JValue → JValue
  | obj : List (String × JValue) → JValue

/-- Model of `api.Record`: identifier, creation timestamp and the untyped
field mapping (a Go map modelled as an association list in iteration
order). -/
structure Record : Type where
  Id : String
  CreatedTime : String
  Fields : List (String × JValue)

/-- The byte-range test in the loop body of `api.IsAirTableId`:
`'0' <= c && c <= '9'`, `'a' <= c && c <= 'z'`, `'A' <= c && c <= 'Z'`
on the byte value `c`. -/
def isIdByte (c : Nat) : Bool :=
  (48 ≤ c && c ≤ 57) || (97 ≤ c && c ≤ 122) || (65 ≤ c && c ≤ 90)

/-- Model of `api.IsAirTableId`: false unless the length is exactly 17;
otherwise every character must pass the alphanumeric byte test. -/
def IsAirTableId (name : String) : Bool :=
  if name.length ≠ 17 then false
  else name.data.all fun c => isIdByte c.toNat

/-- Model of `api.ListRecordsReply` (one page of the paginated listing
protocol): the records of the page and the continuation token, where an
empty token means the end of the table. -/
structure ListRecordsReply : Type where
  Records : List Record
  Offset : String

/-- One reply of the Record Fetcher (`Clerk.ListRecordsPage`): either a page
or an error (validation failure, transport failure, non-200 status or
decode failure are all returned as errors by the Go code). -/
def PageResult : Type := Except String ListRecordsReply

/-- The loop of `Clerk.ListRecordsAll`, driven by a script of fetcher
replies: the k-th element of `script` is the reply to the k-th
`ListRecordsPage` call.  The accumulator `acc` holds the records gathered
so far.  An error reply is returned unchanged, discarding the accumulator;
an empty continuation token stops the loop.  `none` means the script was
exhausted before the loop finished (the Go loop would call the fetcher
again), so the behaviour is not determined by the script. -/
def listAllLoop : List PageResult → List Record → Option (Except String (List Record))
  | [], _ => none
  | Except.error e :: _, _ => some (Except.error e)
  | Except.ok page :: rest, acc =>
    if page.Offset = "" then some (Except.ok (acc ++ page.Records))
    else listAllLoop rest (acc ++ page.Records)

/-- Model of `Clerk.ListRecordsAll` as a function of the fetcher's reply
script: the loop starts with an empty accumulator and an empty offset. -/
def ListRecordsAll (script : List PageResult) : Option (Except String (List Record)) :=
  listAllLoop script []

end Api

/-- C7: `IsAirTableId s` is true exactly when `s` has length 17 and every
character of `s` is ASCII alphanumeric (`Char.isAlphanum` accepts precisely
the ASCII ranges 0-9, a-z, A-Z); in particular strings containing path
separators, whitespace, punctuation or non-ASCII characters, and strings of
any other length, are rejected.  The model is a pure function. -/
theorem isAirTableId_iff_length17_alnum (s : String) :
    Api.IsAirTableId s = true ↔ (s.length = 17 ∧ ∀ c ∈ s.data, c.isAlphanum = true) := by
  have hpt : ∀ c : Char, Api.isIdByte c.toNat = true ↔ c.isAlphanum = true := by
    intro c
    simp only [Api.isIdByte, Char.isAlphanum, Char.isAlpha, Char.isDigit, Char.isUpper,
      Char.isLower, Bool.or_eq_true, Bool.and_eq_true, decide_eq_true_eq, ge_iff_le,
      UInt32.le_def, BitVec.le_def, Char.toNat, UInt32.toNat]
    have h48 : ((48 : UInt32)).toBitVec.toNat = 48 := by decide
    have h57 : ((57 : UInt32)).toBitVec.toNat = 57 := by decide
    have h65 : ((65 : UInt32)).toBitVec.toNat = 65 := by decide
    have h90 : ((90 : UInt32)).toBitVec.toNat = 90 := by decide
    have h97 : ((97 : UInt32)).toBitVec.toNat = 97 := by decide
    have h122 : ((122 : UInt32)).toBitVec.toNat = 122 := by decide
    rw [h48, h57, h65, h90, h97, h122]
    omega
  unfold Api.IsAirTableId
  by_cases h : s.length = 17
  · simp [h, List.all_eq_true, hpt]
  · simp [h]

/-- Helper for C6: driving the `ListRecordsAll` loop through pages whose
continuation tokens are nonempty, followed by a final page with an empty
token, appends all page records to the accumulator in page order. -/
theorem listAllLoop_ok_pages (pages : List Api.ListRecordsReply)
    (last : Api.ListRecordsReply) (acc : List Api.Record)
    (hmid : ∀ p ∈ pages, p.Offset ≠ "") (hlast : last.Offset = "") :
    Api.listAllLoop ((pages ++ [last]).map Except.ok) acc =
      some (Except.ok (acc ++ ((pages ++ [last]).map Api.ListRecordsReply.Records).flatten)) := by
  induction pages generalizing acc with
  | nil => simp [Api.listAllLoop, hlast]
  | cons p ps ih =>
    have hp : p.Offset ≠ "" := hmid p (by simp)
    have hps : ∀ q ∈ ps, q.Offset ≠ "" := fun q hq => hmid q (by simp [hq])
    simp only [List.cons_append, List.map_cons, Api.listAllLoop, if_neg hp, List.append_eq]
    rw [ih (acc ++ p.Records) hps]
    simp

/-- Helper for C6: if the fetcher errors on some page, the loop returns that
error unchanged, discarding the accumulator. -/
theorem listAllLoop_err_pages (pages : List Api.ListRecordsReply) (e : String)
    (rest : List Api.PageResult) (acc : List Api.Record)
    (hmid : ∀ p ∈ pages, p.Offset ≠ "") :
    Api.listAllLoop (pages.map Except.ok ++ Except.error e :: rest) acc =
      some (Except.error e) := by
  induction pages generalizing acc with
  | nil => simp [Api.listAllLoop]
  | cons p ps ih =>
    have hp : p.Offset ≠ "" := hmid p (by simp)
    have hps : ∀ q ∈ ps, q.Offset ≠ "" := fun q hq => hmid q (by simp [hq])
    simp only [List.map_cons, List.cons_append, Api.listAllLoop, if_neg hp, List.append_eq]
    exact ih (acc ++ p.Records) hps

/-- C6: for a fetcher reply script consisting of pages with nonempty
continuation tokens followed by a page with an empty token,
`ListRecordsAll` returns exactly the concatenation of all pages' record
lists in page order; and if the fetcher errors on page k (after k-1 pages
with nonempty tokens), `ListRecordsAll` propagates that first error
unchanged and returns no records, discarding the accumulated pages. -/
theorem listRecordsAll_concat_and_error_discard :
    (∀ (pages : List Api.ListRecordsReply) (last : Api.ListRecordsReply),
       (∀ p ∈ pages, p.Offset ≠ "") → last.Offset = "" →
       Api.ListRecordsAll ((pages ++ [last]).map Except.ok) =
         some (Except.ok (((pages ++ [last]).map Api.ListRecordsReply.Records).flatten)))
    ∧ (∀ (pages : List Api.ListRecordsReply) (e : String) (rest : List Api.PageResult),
       (∀ p ∈ pages, p.Offset ≠ "") →
       Api.ListRecordsAll (pages.map Except.ok ++ Except.error e :: rest) =
         some (Except.error e)) := by
  constructor
  · intro pages last hmid hlast
    have h := listAllLoop_ok_pages pages last [] hmid hlast
    simpa [Api.ListRecordsAll] using h
  · intro pages e rest hmid
    exact listAllLoop_err_pages pages e rest [] hmid

/-- Witness for C6 at concrete inputs: a two-page script (one record each,
the second page with an empty token) concatenates in order, and a script
erroring on page two discards page one's record. -/
theorem listRecordsAll_concat_and_error_discard_witness :
    Api.ListRecordsAll [Except.ok ⟨[⟨"r1", "", []⟩], "tok"⟩, Except.ok ⟨[⟨"r2", "", []⟩], ""⟩] =
        some (Except.ok [⟨"r1", "", []⟩, ⟨"r2", "", []⟩])
    ∧ Api.ListRecordsAll [Except.ok ⟨[⟨"r1", "", []⟩], "tok"⟩, Except.error "boom"] =
        some (Except.error "boom") := by
  constructor
  · have h := listRecordsAll_concat_and_error_discard.1 [⟨[⟨"r1", "", []⟩], "tok"⟩]
      ⟨[⟨"r2", "", []⟩], ""⟩ (by intro p hp; simp at hp; simp [hp]) rfl
    simpa using h
  · have h := listRecordsAll_concat_and_error_discard.2 [⟨[⟨"r1", "", []⟩], "tok"⟩] "boom" []
      (by intro p hp; simp at hp; simp [hp])
    simpa using h

namespace Main

/-- The attachment host constant of `main.go` (source name: the
`AttachmentLink`-`Prefix` constant), in the later revision of the code. -/
def AttachmentLinkHost : String := "https://v5.airtableusercontent.com/"

/-- Model of Go `strings.HasPrefix`: the first string starts with the
second.  Go compares the underlying bytes; at the character level this is
prefix of the character lists, which agrees byte-for-byte on valid UTF-8. -/
def goHasPre (s p : String) : Bool := p.data.isPrefixOf s.data

/-- Model of the `main.Attachment` struct of the later revision:
link, identifier (used as the on-disk filename) and declared size
(`int64`, modelled as `Int`). -/
structure Attachment : Type where
  Link : String
  Id : String
  Size : Int
deriving DecidableEq

/-- A JSON object as it appears inside record fields: a Go
`map from string to interface value`, modelled as an association list. -/
abbrev JObj : Type := List (String × Api.JValue)

/-- Go type assertion `.(string)` applied to the result of indexing a map:
a missing key yields the nil interface value, and asserting a non-string
(or nil) panics. -/
def goAssertString : Option Api.JValue → Except String String
  | some (Api.JValue.str s) => Except.ok s
  | _ => Except.error "panic: interface conversion to string"

/-- Go type assertion `.(float64)` applied to the result of indexing a map
(JSON numbers decode to `float64`, modelled as an exact rational). -/
def goAssertNumber : Option Api.JValue → Except String ℚ
  | some (Api.JValue.num q) => Except.ok q
  | _ => Except.error "panic: interface conversion to float64"

/-- Go conversion `int64(x)` of a `float64` value: truncation toward zero.
Modelled on exact rationals; faithful for values (as everywhere in the
claims) whose truncation is exactly representable in both `float64` and
`int64`. -/
def floatToInt64 (q : ℚ) : Int := q.num.tdiv (q.den : Int)

/-- Model of `main.ExtractAttachment` (later revision).  A Go `panic` is the
`Except.error` branch.  Mirrors the source: if the `url` key is absent the
candidate is not an attachment; otherwise the url must be a string with the
attachment-host prefix, the `id` must be a string passing `IsAirTableId`
and starting with `att`, and the `size` must be a `float64` equal to
`float64(int64(size))`. -/
def ExtractAttachment (itemMap : JObj) : Except String (Bool × Attachment) :=
  match itemMap.lookup "url" with
  | some url =>
    match goAssertString (some url) with
    | Except.error e => Except.error e
    | Except.ok urlStr =>
      if !goHasPre urlStr AttachmentLinkHost then
        Except.error "panic: unexpected string prefix when scanning for attachment links"
      else
        match goAssertString (itemMap.lookup "id") with
        | Except.error e => Except.error e
        | Except.ok idStr =>
          if !Api.IsAirTableId idStr || !goHasPre idStr "att" then
            Except.error "panic: invalid attachment ID"
          else
            match goAssertNumber (itemMap.lookup "size") with
            | Except.error e => Except.error e
            | Except.ok size =>
              if size ≠ ((floatToInt64 size : Int) : ℚ) then
                Except.error "panic: invalid size"
              else
                Except.ok (true, { Link := urlStr, Id := idStr, Size := floatToInt64 size })
  | none => Except.ok (false, { Link := "", Id := "", Size := 0 })

/-- The innermost loop of `main.ExtractAttachments`: scan the elements of a
sequence-valued field, running `ExtractAttachment` on each element that is
a mapping and appending the attachments found, in element order; a panic
aborts everything. -/
def extractFromItems : List Api.JValue → Except String (List Attachment)
  | [] => Except.ok []
  | item :: rest =>
    match item with
    | Api.JValue.obj itemMap =>
      match ExtractAttachment itemMap with
      | Except.error e => Except.error e
      | Except.ok (found, a) =>
        match extractFromItems rest with
        | Except.error e => Except.error e
        | Except.ok tail => Except.ok (if found then a :: tail else tail)
    | _ => extractFromItems rest

/-- The per-record loop of `main.ExtractAttachments`: scan the field values
(in the field mapping's iteration order), descending into sequence
values. -/
def extractFromFields : List (String × Api.JValue) → Except String (List Attachment)
  | [] => Except.ok []
  | (_, v) :: rest =>
    match v with
    | Api.JValue.arr contents =>
      match extractFromItems contents with
      | Except.error e => Except.error e
      | Except.ok here =>
        match extractFromFields rest with
        | Except.error e => Except.error e
        | Except.ok there => Except.ok (here ++ there)
    | _ => extractFromFields rest

/-- The per-table loop of `main.ExtractAttachments`: scan the records in
order. -/
def extractFromRecords : List Api.Record → Except String (List Attachment)
  | [] => Except.ok []
  | r :: rest =>
    match extractFromFields r.Fields with
    | Except.error e => Except.error e
    | Except.ok here =>
      match extractFromRecords rest with
      | Except.error e => Except.error e
      | Except.ok there => Except.ok (here ++ there)

/-- Model of `main.ExtractAttachments` (later revision): scan every table
(in the table mapping's iteration order), every record, every field value;
sequence values are scanned element-wise and each mapping element is an
attachment-descriptor candidate. -/
def ExtractAttachments : List (String × List Api.Record) → Except String (List Attachment)
  | [] => Except.ok []
  | (_, recs) :: rest =>
    match extractFromRecords recs with
    | Except.error e => Except.error e
    | Except.ok here =>
      match ExtractAttachments rest with
      | Except.error e => Except.error e
      | Except.ok there => Except.ok (here ++ there)

/-- The attachment-descriptor candidates of one sequence value: its
elements that are mappings, in element order. -/
def itemCandidates : List Api.JValue → List JObj
  | [] => []
  | Api.JValue.obj m :: rest => m :: itemCandidates rest
  | _ :: rest => itemCandidates rest

/-- The candidates of one record: those of its sequence-valued fields, in
field order. -/
def fieldCandidates : List (String × Api.JValue) → List JObj
  | [] => []
  | (_, Api.JValue.arr l) :: rest => itemCandidates l ++ fieldCandidates rest
  | _ :: rest => fieldCandidates rest

/-- The candidates of a list of records, in record order. -/
def recordsCandidates : List Api.Record → List JObj
  | [] => []
  | r :: rest => fieldCandidates r.Fields ++ recordsCandidates rest

/-- All attachment-descriptor candidates of the tables, in discovery
order. -/
def tablesCandidates : List (String × List Api.Record) → List JObj
  | [] => []
  | (_, recs) :: rest => recordsCandidates recs ++ tablesCandidates rest

/-- Running `ExtractAttachment` over a flat candidate list, keeping one
attachment per candidate on which it reports `found`, in order, with no
deduplication; the first panic aborts. -/
def extractFromCandidates : List JObj → Except String (List Attachment)
  | [] => Except.ok []
  | m :: rest =>
    match ExtractAttachment m with
    | Except.error e => Except.error e
    | Except.ok (found, a) =>
      match extractFromCandidates rest with
      | Except.error e => Except.error e
      | Except.ok tail => Except.ok (if found then a :: tail else tail)

end Main

/-- Helper for C8: extracting from a concatenation of candidate lists is
extraction on each part, with the attachment lists concatenated (first
panic wins). -/
theorem extractFromCandidates_append (xs ys : List Main.JObj) :
    Main.extractFromCandidates (xs ++ ys) =
      match Main.extractFromCandidates xs with
      | Except.error e => Except.error e
      | Except.ok a =>
        match Main.extractFromCandidates ys with
        | Except.error e => Except.error e
        | Except.ok b => Except.ok (a ++ b)
  := by
  induction xs with
  | nil =>
    simp only [List.nil_append, Main.extractFromCandidates]
    cases Main.extractFromCandidates ys <;> simp
  | cons m xs ih =>
    simp only [List.cons_append, Main.extractFromCandidates, List.append_eq]
    cases hm : Main.ExtractAttachment m with
    | error e => rfl
    | ok fa =>
      obtain ⟨found, a⟩ := fa
      rw [ih]
      cases Main.extractFromCandidates xs with
      | error e => rfl
      | ok t =>
        cases Main.extractFromCandidates ys with
        | error e => rfl
        | ok b => cases found <;> simp

/-- Helper for C8: the item scan equals flat extraction over the item
candidates. -/
theorem extractFromItems_eq_candidates (l : List Api.JValue) :
    Main.extractFromItems l = Main.extractFromCandidates (Main.itemCandidates l) := by
  induction l with
  | nil => rfl
  | cons item rest ih =>
    cases item <;> simp only [Main.extractFromItems, Main.itemCandidates, ih]
    rfl

/-- Helper for C8: the field scan equals flat extraction over the field
candidates. -/
theorem extractFromFields_eq_candidates (fs : List (String × Api.JValue)) :
    Main.extractFromFields fs = Main.extractFromCandidates (Main.fieldCandidates fs) := by
  induction fs with
  | nil => rfl
  | cons f rest ih =>
    obtain ⟨k, v⟩ := f
    cases v <;>
      simp only [Main.extractFromFields, Main.fieldCandidates, ih, extractFromCandidates_append,
        extractFromItems_eq_candidates]

/-- Helper for C8: the record scan equals flat extraction over the record
candidates. -/
theorem extractFromRecords_eq_candidates (rs : List Api.Record) :
    Main.extractFromRecords rs = Main.extractFromCandidates (Main.recordsCandidates rs) := by
  induction rs with
  | nil => rfl
  | cons r rest ih =>
    simp only [Main.extractFromRecords, Main.recordsCandidates, ih, extractFromCandidates_append,
      extractFromFields_eq_candidates]

/-- C8: `ExtractAttachments` is a pure function of the tables in their given
iteration order (determinism is immediate in the model), and it equals flat
extraction over the candidate list in discovery order — exactly one
attachment per valid candidate, found-order preserved, no deduplication.
The second conjunct exhibits the no-deduplication behaviour concretely: a
record field holding the same valid descriptor twice yields the same
attachment twice. -/
theorem extractAttachments_per_candidate_in_order_no_dedup :
    (∀ tables : List (String × List Api.Record),
      Main.ExtractAttachments tables = Main.extractFromCandidates (Main.tablesCandidates tables))
    ∧ Main.ExtractAttachments
        [("tbl", [⟨"rec", "",
          [("f", Api.JValue.arr
            [Api.JValue.obj [("url", Api.JValue.str (Main.AttachmentLinkHost ++ "x")),
               ("id", Api.JValue.str "attABCDEFGHIJKLMN"), ("size", Api.JValue.num 42)],
             Api.JValue.obj [("url", Api.JValue.str (Main.AttachmentLinkHost ++ "x")),
               ("id", Api.JValue.str "attABCDEFGHIJKLMN"), ("size", Api.JValue.num 42)]])]⟩])] =
      Except.ok [{ Link := Main.AttachmentLinkHost ++ "x", Id := "attABCDEFGHIJKLMN", Size := 42 },
        { Link := Main.AttachmentLinkHost ++ "x", Id := "attABCDEFGHIJKLMN", Size := 42 }] := by
  constructor
  · intro tables
    induction tables with
    | nil => rfl
    | cons t rest ih =>
      obtain ⟨name, recs⟩ := t
      simp only [Main.ExtractAttachments, Main.tablesCandidates, ih, extractFromCandidates_append,
        extractFromRecords_eq_candidates]
  · rfl

/-- Inversion for the `.(string)` assertion: success forces the value to be
present and a string. -/
theorem goAssertString_ok {o : Option Api.JValue} {s : String}
    (h : Main.goAssertString o = Except.ok s) : o = some (Api.JValue.str s) := by
  cases o with
  | none => exact absurd h (by simp [Main.goAssertString])
  | some v => cases v <;> simp_all [Main.goAssertString]

/-- Inversion for the `.(float64)` assertion: success forces the value to be
present and a number. -/
theorem goAssertNumber_ok {o : Option Api.JValue} {q : ℚ}
    (h : Main.goAssertNumber o = Except.ok q) : o = some (Api.JValue.num q) := by
  cases o with
  | none => exact absurd h (by simp [Main.goAssertNumber])
  | some v => cases v <;> simp_all [Main.goAssertNumber]

/-- Shared inversion for C4 and C10: whenever `ExtractAttachment` returns
normally on a candidate that has a `url` key, the url is a string carrying
the attachment-host prefix, the id is a string passing the validator with
the `att` prefix, the size is a number equal to its `int64` truncation, and
the returned attachment is built from exactly those values. -/
theorem extractAttachment_ok_cases (m : Main.JObj) (v : Api.JValue)
    (hv : m.lookup "url" = some v) (r : Bool × Main.Attachment)
    (hr : Main.ExtractAttachment m = Except.ok r) :
    ∃ s i q, v = Api.JValue.str s ∧ Main.goHasPre s Main.AttachmentLinkHost = true ∧
      m.lookup "id" = some (Api.JValue.str i) ∧ Api.IsAirTableId i = true ∧
      Main.goHasPre i "att" = true ∧ m.lookup "size" = some (Api.JValue.num q) ∧
      q = ((Main.floatToInt64 q : Int) : ℚ) ∧
      r = (true, { Link := s, Id := i, Size := Main.floatToInt64 q }) := by
  simp only [Main.ExtractAttachment, hv] at hr
  split at hr
  · exact absurd hr (by simp)
  · rename_i urlStr heq
    have hv2 : v = Api.JValue.str urlStr := Option.some.inj (goAssertString_ok heq)
    split at hr
    · exact absurd hr (by simp)
    · rename_i hcond
      have hpre : Main.goHasPre urlStr Main.AttachmentLinkHost = true := by
        simpa using hcond
      split at hr
      · exact absurd hr (by simp)
      · rename_i idStr heq2
        have hid : m.lookup "id" = some (Api.JValue.str idStr) := goAssertString_ok heq2
        split at hr
        · exact absurd hr (by simp)
        · rename_i hcond2
          have hidv : Api.IsAirTableId idStr = true ∧ Main.goHasPre idStr "att" = true := by
            simpa using hcond2
          split at hr
          · exact absurd hr (by simp)
          · rename_i q heq3
            have hsz : m.lookup "size" = some (Api.JValue.num q) := goAssertNumber_ok heq3
            split at hr
            · exact absurd hr (by simp)
            · rename_i hcond3
              have hint : q = ((Main.floatToInt64 q : Int) : ℚ) := not_not.mp hcond3
              exact ⟨urlStr, idStr, q, hv2, hpre, hid, hidv.1, hidv.2, hsz, hint,
                (Except.ok.inj hr).symm⟩

/-- C4 (amended): for every candidate with a `url` key, extraction is fatal
(a panic, modelled as `Except.error`) unless the url is a string starting
with the attachment-host prefix, the id a string passing the Identifier
Validator and starting with `att`, and the declared size a numeric value
that is integral (equal to its `int64` truncation) — but not necessarily
non-negative: the contrapositive form below shows a normal return forces
exactly these conditions and nothing more.  In particular the candidate
with url `host/x`, id `attABCDEFGHIJKLMN` and size 42.0 yields one
attachment of size 42, and the same candidate with size 42.5 (the rational 85/2) makes
extraction fail. -/
theorem extractAttachment_fatal_unless_valid_integral :
    (∀ (m : Main.JObj) (v : Api.JValue), m.lookup "url" = some v →
      ∀ r, Main.ExtractAttachment m = Except.ok r →
      ∃ s i q, v = Api.JValue.str s ∧ Main.goHasPre s Main.AttachmentLinkHost = true ∧
        m.lookup "id" = some (Api.JValue.str i) ∧ Api.IsAirTableId i = true ∧
        Main.goHasPre i "att" = true ∧ m.lookup "size" = some (Api.JValue.num q) ∧
        q = ((Main.floatToInt64 q : Int) : ℚ) ∧
        r = (true, { Link := s, Id := i, Size := Main.floatToInt64 q }))
    ∧ Main.ExtractAttachment [("url", Api.JValue.str (Main.AttachmentLinkHost ++ "x")),
        ("id", Api.JValue.str "attABCDEFGHIJKLMN"), ("size", Api.JValue.num 42)] =
      Except.ok (true, { Link := Main.AttachmentLinkHost ++ "x", Id := "attABCDEFGHIJKLMN", Size := 42 })
    ∧ Main.ExtractAttachment [("url", Api.JValue.str (Main.AttachmentLinkHost ++ "x")),
        ("id", Api.JValue.str "attABCDEFGHIJKLMN"), ("size", Api.JValue.num (mkRat 85 2))] =
      Except.error "panic: invalid size" :=
  ⟨fun m v hv r hr => extractAttachment_ok_cases m v hv r hr, rfl, rfl⟩

/-- Witness for C4's amended theorem at the concrete size-42 candidate. -/
theorem extractAttachment_fatal_unless_valid_integral_witness :
    ∃ s i q, Api.JValue.str (Main.AttachmentLinkHost ++ "x") = Api.JValue.str s ∧
      Main.goHasPre s Main.AttachmentLinkHost = true ∧
      List.lookup "id" [("url", Api.JValue.str (Main.AttachmentLinkHost ++ "x")),
        ("id", Api.JValue.str "attABCDEFGHIJKLMN"), ("size", Api.JValue.num 42)] =
        some (Api.JValue.str i) ∧
      Api.IsAirTableId i = true ∧ Main.goHasPre i "att" = true ∧
      List.lookup "size" [("url", Api.JValue.str (Main.AttachmentLinkHost ++ "x")),
        ("id", Api.JValue.str "attABCDEFGHIJKLMN"), ("size", Api.JValue.num 42)] =
        some (Api.JValue.num q) ∧
      q = ((Main.floatToInt64 q : Int) : ℚ) ∧
      ((true, { Link := Main.AttachmentLinkHost ++ "x", Id := "attABCDEFGHIJKLMN", Size := 42 }) : Bool × Main.Attachment) =
        (true, { Link := s, Id := i, Size := Main.floatToInt64 q }) :=
  extractAttachment_fatal_unless_valid_integral.1
    [("url", Api.JValue.str (Main.AttachmentLinkHost ++ "x")),
      ("id", Api.JValue.str "attABCDEFGHIJKLMN"), ("size", Api.JValue.num 42)]
    (Api.JValue.str (Main.AttachmentLinkHost ++ "x")) rfl
    (true, { Link := Main.AttachmentLinkHost ++ "x", Id := "attABCDEFGHIJKLMN", Size := 42 }) rfl

/-- C4 counterexample: the claim as stated requires the declared size to be
NON-NEGATIVE integral for extraction to succeed, but the code only checks
integrality — a candidate with the valid url and id and declared size -5.0
is accepted, yielding an attachment of size -5 instead of aborting the
run. -/
theorem extractAttachment_negative_size_accepted :
    Main.ExtractAttachment [("url", Api.JValue.str (Main.AttachmentLinkHost ++ "x")),
      ("id", Api.JValue.str "attABCDEFGHIJKLMN"), ("size", Api.JValue.num (-5))] =
    Except.ok (true, { Link := Main.AttachmentLinkHost ++ "x", Id := "attABCDEFGHIJKLMN", Size := -5 }) := rfl

/-- C10: on a candidate that has a `url` key, if the url value is not a
string, or there is no `id` key holding a string, or no `size` key holding
a number, then `ExtractAttachment` panics (the whole run aborts) instead of
skipping the candidate or returning it as an attachment. -/
theorem extractAttachment_dynamic_type_panics (m : Main.JObj) (v : Api.JValue)
    (hv : m.lookup "url" = some v)
    (hbad : (∀ s, v ≠ Api.JValue.str s) ∨ (∀ s, m.lookup "id" ≠ some (Api.JValue.str s)) ∨
      (∀ q, m.lookup "size" ≠ some (Api.JValue.num q))) :
    ∃ msg, Main.ExtractAttachment m = Except.error msg := by
  cases hres : Main.ExtractAttachment m with
  | error e => exact ⟨e, rfl⟩
  | ok r =>
    exfalso
    obtain ⟨s, i, q, hv2, _, hid, _, _, hsz, _, _⟩ :=
      extractAttachment_ok_cases m v hv r hres
    rcases hbad with h | h | h
    · exact h s hv2
    · exact h i hid
    · exact h q hsz

/-- Witness for C10: a candidate whose `url` value is a number (not a
string) makes `ExtractAttachment` panic. -/
theorem extractAttachment_dynamic_type_panics_witness :
    ∃ msg, Main.ExtractAttachment [("url", Api.JValue.num 1)] = Except.error msg :=
  extractAttachment_dynamic_type_panics [("url", Api.JValue.num 1)] (Api.JValue.num 1) rfl
    (Or.inl fun _ h => Api.JValue.noConfusion h)

namespace Main

/-- One extraction worker of `main.ExtractAllTables`: for its source `app`
it processes the configured tables sequentially through the Table Lister
(abstracted as `fetch`), recording its per-table successes (the writes it
makes to the shared result map) and, on the first error, the single error
it sends to the error channel before breaking out of its loop. -/
def runWorker (fetch : String → String → Except String (List Api.Record)) (app : String) :
    List String → List (String × List Api.Record) × Option String
  | [] => ([], none)
  | t :: ts =>
    match fetch app t with
    | Except.error e => ([], some e)
    | Except.ok recs =>
      let rest := runWorker fetch app ts
      ((t, recs) :: rest.1, rest.2)

/-- The joined outcomes of all workers of `main.ExtractAllTables`, one per
configured source. -/
def workerResults (fetch : String → String → Except String (List Api.Record))
    (config : List (String × List String)) :
    List (List (String × List Api.Record) × Option String) :=
  config.map fun p => runWorker fetch p.1 p.2

/-- The errors collected from the coordinator's error channel after the
join: at most one error per worker, exactly the workers that failed. -/
def collectedErrors (fetch : String → String → Except String (List Api.Record))
    (config : List (String × List String)) : List String :=
  (workerResults fetch config).filterMap fun r => r.2

/-- Model of `main.ExtractAllTables`: one worker per configured source; the
coordinator joins all workers, collects every error sent to the channel
(one per failed worker), and returns the aggregate error if any worker
failed, else the merged result map (the union of the per-worker map
writes).  The claims proved about the result are insensitive to the
interleaving of the concurrent map writes. -/
def ExtractAllTables (fetch : String → String → Except String (List Api.Record))
    (config : List (String × List String)) :
    Except (List String) (List (String × List Api.Record)) :=
  if (collectedErrors fetch config).isEmpty then
    Except.ok (((workerResults fetch config).map fun r => r.1).flatten)
  else Except.error (collectedErrors fetch config)

end Main

/-- Helper for C1: a worker that reports no error processed every one of its
tables successfully and recorded each table's records. -/
theorem runWorker_no_error_complete
    (fetch : String → String → Except String (List Api.Record)) (app : String)
    (ts : List String) (h : (Main.runWorker fetch app ts).2 = none) :
    ∀ t ∈ ts, ∃ recs, (t, recs) ∈ (Main.runWorker fetch app ts).1 ∧ fetch app t = Except.ok recs := by
  induction ts with
  | nil => intro t ht; cases ht
  | cons t0 ts ih =>
    intro t ht
    cases hf : fetch app t0 with
    | error e =>
      exfalso
      simp only [Main.runWorker, hf] at h
      cases h
    | ok recs =>
      simp only [Main.runWorker, hf] at h ⊢
      rcases List.mem_cons.mp ht with rfl | hmem
      · exact ⟨recs, List.mem_cons_self _ _, hf⟩
      · rcases ih h t hmem with ⟨r2, hin, hfe⟩
        exact ⟨r2, List.mem_cons_of_mem _ hin, hfe⟩


/-- C1: for every configuration and every outcome of the per-source
workers, `ExtractAllTables` either succeeds with a result map containing an
entry for every configured (source, table) pair — never a partial map — or
returns an aggregate error; and whenever some worker fails (it sends `some
e` to the error channel), the success path is not taken and the aggregate
error contains that worker's underlying error, hence at least one error per
failed source. -/
theorem extractAllTables_all_or_nothing
    (fetch : String → String → Except String (List Api.Record))
    (config : List (String × List String)) :
    (∀ m, Main.ExtractAllTables fetch config = Except.ok m →
      ∀ app tables, (app, tables) ∈ config → ∀ t ∈ tables,
        ∃ recs, (t, recs) ∈ m ∧ fetch app t = Except.ok recs)
    ∧ (∀ app tables e, (app, tables) ∈ config →
        (Main.runWorker fetch app tables).2 = some e →
        ∃ errs, Main.ExtractAllTables fetch config = Except.error errs ∧ e ∈ errs ∧
          ∀ m, Main.ExtractAllTables fetch config ≠ Except.ok m) := by
  constructor
  · intro m hm app tables hcfg t ht
    unfold Main.ExtractAllTables at hm
    split at hm
    · rename_i hempty
      have hnone : (Main.runWorker fetch app tables).2 = none := by
        rw [List.isEmpty_iff] at hempty
        have hall := List.filterMap_eq_nil_iff.mp hempty
        exact hall (Main.runWorker fetch app tables)
          (List.mem_map.mpr ⟨(app, tables), hcfg, rfl⟩)
      rcases runWorker_no_error_complete fetch app tables hnone t ht with ⟨recs, hin, hfe⟩
      refine ⟨recs, ?_, hfe⟩
      have hm2 := Except.ok.inj hm
      rw [← hm2]
      exact List.mem_flatten.mpr ⟨(Main.runWorker fetch app tables).1,
        List.mem_map.mpr ⟨Main.runWorker fetch app tables,
          List.mem_map.mpr ⟨(app, tables), hcfg, rfl⟩, rfl⟩, hin⟩
    · exact absurd hm (by simp)
  · intro app tables e hcfg he
    have hmem : e ∈ Main.collectedErrors fetch config :=
      List.mem_filterMap.mpr ⟨Main.runWorker fetch app tables,
        List.mem_map.mpr ⟨(app, tables), hcfg, rfl⟩, he⟩
    have hne : (Main.collectedErrors fetch config).isEmpty = false := by
      cases h2 : (Main.collectedErrors fetch config).isEmpty
      · rfl
      · rw [List.isEmpty_iff] at h2
        rw [h2] at hmem
        cases hmem
    refine ⟨Main.collectedErrors fetch config, ?_, hmem, ?_⟩
    · simp [Main.ExtractAllTables, hne]
    · intro m hm
      simp [Main.ExtractAllTables, hne] at hm

/-- Witness for C1 at concrete inputs: a one-source configuration whose
fetch succeeds yields a complete entry for its (source, table) pair, and
the same configuration with a failing fetch yields an aggregate error
containing the worker's error while the success path is never taken. -/
theorem extractAllTables_all_or_nothing_witness :
    (∃ recs, ("tblA", recs) ∈ [("tblA", ([] : List Api.Record))] ∧
      (Except.ok [] : Except String (List Api.Record)) = Except.ok recs)
    ∧ (∃ errs, Main.ExtractAllTables (fun _ _ => Except.error "boom") [("app1", ["tblA"])] =
        Except.error errs ∧ "boom" ∈ errs ∧
        ∀ m, Main.ExtractAllTables (fun _ _ => Except.error "boom") [("app1", ["tblA"])] ≠
          Except.ok m) := by
  constructor
  · exact (extractAllTables_all_or_nothing
      (fun _ _ => (Except.ok [] : Except String (List Api.Record)))
      [("app1", ["tblA"])]).1 [("tblA", [])] rfl "app1" ["tblA"] (by simp) "tblA" (by simp)
  · exact (extractAllTables_all_or_nothing (fun _ _ => Except.error "boom")
      [("app1", ["tblA"])]).2 "app1" ["tblA"] "boom" (by simp) rfl

/-- C9: with table configuration mapping source `app1` to the single table
`tbl1`, and a paginator returning two pages (5 records, then 3 records with
an empty offset), the coordinator succeeds and returns exactly the 8
records under the key `tbl1`. -/
theorem extractAllTables_two_page_scenario :
    Main.ExtractAllTables
      (fun _ _ =>
        (Api.ListRecordsAll
          [Except.ok ⟨[⟨"rA", "", []⟩, ⟨"rB", "", []⟩, ⟨"rC", "", []⟩, ⟨"rD", "", []⟩,
             ⟨"rE", "", []⟩], "page2"⟩,
           Except.ok ⟨[⟨"rF", "", []⟩, ⟨"rG", "", []⟩, ⟨"rH", "", []⟩], ""⟩]).getD
          (Except.error "paginator script exhausted"))
      [("app1", ["tbl1"])] =
      Except.ok [("tbl1",
        [⟨"rA", "", []⟩, ⟨"rB", "", []⟩, ⟨"rC", "", []⟩, ⟨"rD", "", []⟩, ⟨"rE", "", []⟩,
         ⟨"rF", "", []⟩, ⟨"rG", "", []⟩, ⟨"rH", "", []⟩])]
    ∧ ([⟨"rA", "", []⟩, ⟨"rB", "", []⟩, ⟨"rC", "", []⟩, ⟨"rD", "", []⟩, ⟨"rE", "", []⟩,
        ⟨"rF", "", []⟩, ⟨"rG", "", []⟩, ⟨"rH", "", []⟩] : List Api.Record).length = 8 :=
  ⟨rfl, rfl⟩

namespace Main

/-- The file-system state visible to the downloader: a finite map from path
to file contents (byte lists), modelled as an association list. -/
def FS : Type := List (String × List Nat)

/-- Look a path up in the file system. -/
def fsLookup : FS → String → Option (List Nat)
  | [], _ => none
  | (k, d) :: rest, p => if k = p then some d else fsLookup rest p

/-- Remove a path (idempotent if absent). -/
def fsErase : FS → String → FS
  | [], _ => []
  | (k, d) :: rest, p => if k = p then fsErase rest p else (k, d) :: fsErase rest p

/-- Create or truncate-and-write a file. -/
def fsWrite (fs : FS) (p : String) (d : List Nat) : FS := (p, d) :: fsErase fs p

/-- Model of Go `path.Join(dir, name)` for a well-formed directory path and
a nonempty clean name, as used by the downloader. -/
def pathJoin (dir name : String) : String := dir ++ "/" ++ name

/-- The environment one `DownloadAttachment` call interacts with:
the outcome of `client.Get` (either a transport error, or the body bytes
actually delivered together with whether the stream ended cleanly — a
`false` flag is a transport break after those bytes, surfacing as the
`io.Copy` error), and whether `os.Create`, the temp-file `Close` and
`os.Rename` succeed.  The response body's own `Close` in the deferred
cleanup is modelled as succeeding. -/
structure DLWorld : Type where
  getResult : Except String (List Nat × Bool)
  createOk : Bool
  closeOk : Bool
  renameOk : Bool

/-- Model of `main.DownloadAttachment` (later revision).  Returns the Go
error result together with the file system after the call, including the
deferred scoped cleanup of the temp file on every failure path:
get the body; create `TEMP.<name>`; copy the delivered bytes into it; fail
if the stream broke or the byte count differs from the declared size; close
the temp file; rename it onto the final path. -/
def DownloadAttachment (attachment : Attachment) (outputDir outputFilename : String)
    (w : DLWorld) (fs : FS) : Except String Unit × FS :=
  match w.getResult with
  | Except.error e => (Except.error e, fs)
  | Except.ok (body, clean) =>
    if !w.createOk then (Except.error "create failed", fs)
    else
      if !clean then
        (Except.error "transport error while copying body",
          fsErase (fsWrite fs (pathJoin outputDir ("TEMP." ++ outputFilename)) body)
            (pathJoin outputDir ("TEMP." ++ outputFilename)))
      else if (body.length : Int) ≠ attachment.Size then
        (Except.error "mismatch on download: received byte count differs from declared size",
          fsErase (fsWrite fs (pathJoin outputDir ("TEMP." ++ outputFilename)) body)
            (pathJoin outputDir ("TEMP." ++ outputFilename)))
      else if !w.closeOk then
        (Except.error "close failed",
          fsErase (fsWrite fs (pathJoin outputDir ("TEMP." ++ outputFilename)) body)
            (pathJoin outputDir ("TEMP." ++ outputFilename)))
      else if !w.renameOk then
        (Except.error "rename failed",
          fsErase (fsWrite fs (pathJoin outputDir ("TEMP." ++ outputFilename)) body)
            (pathJoin outputDir ("TEMP." ++ outputFilename)))
      else
        (Except.ok (),
          fsErase
            (fsWrite (fsWrite fs (pathJoin outputDir ("TEMP." ++ outputFilename)) body)
              (pathJoin outputDir outputFilename) body)
            (pathJoin outputDir ("TEMP." ++ outputFilename)))

/-- The environment a `DownloadAttachments` run interacts with: the
per-link download world, an oracle for `os.Stat` errors other than
not-exists, and whether the download directory check passes. -/
structure DLEnv : Type where
  worldOf : String → DLWorld
  statErr : String → Option String
  dirOk : Bool

/-- The per-attachment loop of `main.DownloadAttachments` (later revision),
over the already-sorted attachment list.  Returns the Go error result, the
final file system, and the list of identifiers for which a network download
was initiated (`client.Get` issued), in order.  For each attachment: the
identifier is re-checked (panicking otherwise), the final path is stated;
a not-exists result triggers a download, any other stat error is fatal, an
existing file with mismatched size is fatal, and a matching size skips. -/
def downloadLoop (env : DLEnv) (downloadDir : String) :
    List Attachment → FS → Except String Unit × FS × List String
  | [], fs => (Except.ok (), fs, [])
  | attachment :: rest, fs =>
    if !Api.IsAirTableId attachment.Id then
      (Except.error "panic: invalid attachment ID format; should have been checked earlier",
        fs, [])
    else
      match env.statErr (pathJoin downloadDir attachment.Id) with
      | some e => (Except.error e, fs, [])
      | none =>
        match fsLookup fs (pathJoin downloadDir attachment.Id) with
        | none =>
          match
            DownloadAttachment attachment downloadDir attachment.Id
              (env.worldOf attachment.Link) fs with
          | (Except.error e, fs2) => (Except.error e, fs2, [attachment.Id])
          | (Except.ok _, fs2) =>
            let r := downloadLoop env downloadDir rest fs2
            (r.1, r.2.1, attachment.Id :: r.2.2)
        | some contents =>
          if (contents.length : Int) ≠ attachment.Size then
            (Except.error "invalid size for already-downloaded attachment", fs, [])
          else downloadLoop env downloadDir rest fs

/-- Model of `main.DownloadAttachments` (later revision): check the
download directory, sort the attachments by ascending identifier, then run
the sequential per-attachment loop. -/
def DownloadAttachments (env : DLEnv) (attachments : List Attachment)
    (downloadDir : String) (fs : FS) : Except String Unit × FS × List String :=
  if !env.dirOk then
    (Except.error "download directory stat failed or is not a directory", fs, [])
  else downloadLoop env downloadDir
    (attachments.mergeSort fun a b => a.Id ≤ b.Id) fs

end Main

/-- Looking up after an erase: the erased path is gone, others are
untouched. -/
theorem fsLookup_fsErase (fs : Main.FS) (p q : String) :
    Main.fsLookup (Main.fsErase fs p) q = if q = p then none else Main.fsLookup fs q := by
  induction fs with
  | nil => simp [Main.fsErase, Main.fsLookup]
  | cons e rest ih =>
    obtain ⟨k, d⟩ := e
    by_cases hk : k = p
    · subst hk
      simp only [Main.fsErase, eq_self_iff_true, if_true]
      rw [ih]
      by_cases hq : q = k
      · simp [hq]
      · have hkq : ¬(k = q) := fun h => hq h.symm
        simp [Main.fsLookup, hq, hkq]
    · simp only [Main.fsErase, if_neg hk, Main.fsLookup]
      by_cases hkq : k = q
      · have hq : ¬(q = p) := fun h => hk (hkq.trans h)
        simp [hkq, hq]
      · rw [if_neg hkq, ih]
        by_cases hq : q = p <;> simp [hq, Main.fsLookup, hkq]

/-- Looking up after a write: the written path holds the new contents,
others are untouched. -/
theorem fsLookup_fsWrite (fs : Main.FS) (p : String) (d : List Nat) (q : String) :
    Main.fsLookup (Main.fsWrite fs p d) q = if q = p then some d else Main.fsLookup fs q := by
  unfold Main.fsWrite
  by_cases hq : q = p
  · simp [Main.fsLookup, hq]
  · have hpq : ¬(p = q) := fun h => hq h.symm
    simp only [Main.fsLookup, if_neg hpq, if_neg hq, fsLookup_fsErase, if_neg hq]

/-- The temp sibling path `dir/TEMP.<name>` is never the final path
`dir/<name>` (they differ in length). -/
theorem tempPath_ne_finalPath (outputDir outputFilename : String) :
    Main.pathJoin outputDir ("TEMP." ++ outputFilename) ≠
      Main.pathJoin outputDir outputFilename := by
  intro h
  have h2 := congrArg String.length h
  have h5 : ("TEMP." : String).length = 5 := rfl
  simp only [Main.pathJoin, String.length_append] at h2
  omega

/-- C2: for an attachment whose file is absent from the target directory
(and with no stale temp file), `DownloadAttachment` either succeeds —
having written the delivered body (whose byte count equals the declared
size exactly) to the temp sibling `TEMP.<name>`, closed it and renamed it
onto the final path, which afterwards holds exactly the body while no temp
file remains — or fails (transport error before or during the body,
create, byte-count mismatch, close or rename failure), in which case no
file exists at the final path afterwards and no temp file remains. -/
theorem downloadAttachment_atomic (attachment : Main.Attachment)
    (outputDir outputFilename : String) (w : Main.DLWorld) (fs : Main.FS)
    (hout : Main.fsLookup fs (Main.pathJoin outputDir outputFilename) = none)
    (htemp : Main.fsLookup fs (Main.pathJoin outputDir ("TEMP." ++ outputFilename)) = none) :
    ((Main.DownloadAttachment attachment outputDir outputFilename w fs).1 = Except.ok () →
      ∃ body, w.getResult = Except.ok (body, true) ∧
        (body.length : Int) = attachment.Size ∧
        Main.fsLookup (Main.DownloadAttachment attachment outputDir outputFilename w fs).2
          (Main.pathJoin outputDir outputFilename) = some body ∧
        Main.fsLookup (Main.DownloadAttachment attachment outputDir outputFilename w fs).2
          (Main.pathJoin outputDir ("TEMP." ++ outputFilename)) = none)
    ∧ (∀ e,
        (Main.DownloadAttachment attachment outputDir outputFilename w fs).1 = Except.error e →
        Main.fsLookup (Main.DownloadAttachment attachment outputDir outputFilename w fs).2
          (Main.pathJoin outputDir outputFilename) = none ∧
        Main.fsLookup (Main.DownloadAttachment attachment outputDir outputFilename w fs).2
          (Main.pathJoin outputDir ("TEMP." ++ outputFilename)) = none) := by
  have hne := tempPath_ne_finalPath outputDir outputFilename
  have hne2 : Main.pathJoin outputDir outputFilename ≠
      Main.pathJoin outputDir ("TEMP." ++ outputFilename) := Ne.symm hne
  cases hg : w.getResult with
  | error e =>
    have hres : Main.DownloadAttachment attachment outputDir outputFilename w fs =
        (Except.error e, fs) := by
      unfold Main.DownloadAttachment
      rw [hg]
    rw [hres]
    exact ⟨fun h => absurd h (by simp), fun e2 h => ⟨hout, htemp⟩⟩
  | ok bc =>
    obtain ⟨body, clean⟩ := bc
    cases hc : w.createOk with
    | false =>
      have hres : Main.DownloadAttachment attachment outputDir outputFilename w fs =
          (Except.error "create failed", fs) := by
        unfold Main.DownloadAttachment
        rw [hg]
        simp [hc]
      rw [hres]
      exact ⟨fun h => absurd h (by simp), fun e2 h => ⟨hout, htemp⟩⟩
    | true =>
      cases clean with
      | false =>
        have hres : Main.DownloadAttachment attachment outputDir outputFilename w fs =
            (Except.error "transport error while copying body",
              Main.fsErase
                (Main.fsWrite fs (Main.pathJoin outputDir ("TEMP." ++ outputFilename)) body)
                (Main.pathJoin outputDir ("TEMP." ++ outputFilename))) := by
          unfold Main.DownloadAttachment
          rw [hg]
          simp [hc]
        rw [hres]
        refine ⟨fun h => absurd h (by simp), fun e2 h => ⟨?_, ?_⟩⟩
        · simp [fsLookup_fsErase, fsLookup_fsWrite, hne2, hout]
        · simp [fsLookup_fsErase]
      | true =>
        by_cases hsz : (body.length : Int) = attachment.Size
        · cases hcl : w.closeOk with
          | false =>
            have hres : Main.DownloadAttachment attachment outputDir outputFilename w fs =
                (Except.error "close failed",
                  Main.fsErase
                    (Main.fsWrite fs (Main.pathJoin outputDir ("TEMP." ++ outputFilename)) body)
                    (Main.pathJoin outputDir ("TEMP." ++ outputFilename))) := by
              unfold Main.DownloadAttachment
              rw [hg]
              simp [hc, hcl, hsz]
            rw [hres]
            refine ⟨fun h => absurd h (by simp), fun e2 h => ⟨?_, ?_⟩⟩
            · simp [fsLookup_fsErase, fsLookup_fsWrite, hne2, hout]
            · simp [fsLookup_fsErase]
          | true =>
            cases hr : w.renameOk with
            | false =>
              have hres : Main.DownloadAttachment attachment outputDir outputFilename w fs =
                  (Except.error "rename failed",
                    Main.fsErase
                      (Main.fsWrite fs (Main.pathJoin outputDir ("TEMP." ++ outputFilename)) body)
                      (Main.pathJoin outputDir ("TEMP." ++ outputFilename))) := by
                unfold Main.DownloadAttachment
                rw [hg]
                simp [hc, hcl, hr, hsz]
              rw [hres]
              refine ⟨fun h => absurd h (by simp), fun e2 h => ⟨?_, ?_⟩⟩
              · simp [fsLookup_fsErase, fsLookup_fsWrite, hne2, hout]
              · simp [fsLookup_fsErase]
            | true =>
              have hres : Main.DownloadAttachment attachment outputDir outputFilename w fs =
                  (Except.ok (),
                    Main.fsErase
                      (Main.fsWrite
                        (Main.fsWrite fs
                          (Main.pathJoin outputDir ("TEMP." ++ outputFilename)) body)
                        (Main.pathJoin outputDir outputFilename) body)
                      (Main.pathJoin outputDir ("TEMP." ++ outputFilename))) := by
                unfold Main.DownloadAttachment
                rw [hg]
                simp [hc, hcl, hr, hsz]
              rw [hres]
              refine ⟨fun h => ⟨body, rfl, hsz, ?_, ?_⟩, fun e2 h => absurd h (by simp)⟩
              · simp [fsLookup_fsErase, fsLookup_fsWrite, hne2]
              · simp [fsLookup_fsErase]
        · have hres : Main.DownloadAttachment attachment outputDir outputFilename w fs =
              (Except.error
                  "mismatch on download: received byte count differs from declared size",
                Main.fsErase
                  (Main.fsWrite fs (Main.pathJoin outputDir ("TEMP." ++ outputFilename)) body)
                  (Main.pathJoin outputDir ("TEMP." ++ outputFilename))) := by
            unfold Main.DownloadAttachment
            rw [hg]
            simp [hc, hsz]
          rw [hres]
          refine ⟨fun h => absurd h (by simp), fun e2 h => ⟨?_, ?_⟩⟩
          · simp [fsLookup_fsErase, fsLookup_fsWrite, hne2, hout]
          · simp [fsLookup_fsErase]

/-- Witness for C2 at a concrete input: a clean two-byte download into an
empty directory succeeds and the final file holds the body with no temp
left; with the same world but a transport break after one byte, the call
fails and leaves neither a final file nor a temp file. -/
theorem downloadAttachment_atomic_witness :
    ((Main.DownloadAttachment ⟨"L", "attABCDEFGHIJKLMN", 2⟩ "dl" "attABCDEFGHIJKLMN"
        ⟨Except.ok ([7, 9], true), true, true, true⟩ []).1 = Except.ok () →
      ∃ body, (Except.ok ([7, 9], true) : Except String (List Nat × Bool)) =
          Except.ok (body, true) ∧
        (body.length : Int) = (2 : Int) ∧
        Main.fsLookup (Main.DownloadAttachment ⟨"L", "attABCDEFGHIJKLMN", 2⟩ "dl"
            "attABCDEFGHIJKLMN" ⟨Except.ok ([7, 9], true), true, true, true⟩ []).2
          (Main.pathJoin "dl" "attABCDEFGHIJKLMN") = some body ∧
        Main.fsLookup (Main.DownloadAttachment ⟨"L", "attABCDEFGHIJKLMN", 2⟩ "dl"
            "attABCDEFGHIJKLMN" ⟨Except.ok ([7, 9], true), true, true, true⟩ []).2
          (Main.pathJoin "dl" ("TEMP." ++ "attABCDEFGHIJKLMN")) = none)
    ∧ (∀ e,
        (Main.DownloadAttachment ⟨"L", "attABCDEFGHIJKLMN", 2⟩ "dl" "attABCDEFGHIJKLMN"
          ⟨Except.ok ([7], false), true, true, true⟩ []).1 = Except.error e →
        Main.fsLookup (Main.DownloadAttachment ⟨"L", "attABCDEFGHIJKLMN", 2⟩ "dl"
            "attABCDEFGHIJKLMN" ⟨Except.ok ([7], false), true, true, true⟩ []).2
          (Main.pathJoin "dl" "attABCDEFGHIJKLMN") = none ∧
        Main.fsLookup (Main.DownloadAttachment ⟨"L", "attABCDEFGHIJKLMN", 2⟩ "dl"
            "attABCDEFGHIJKLMN" ⟨Except.ok ([7], false), true, true, true⟩ []).2
          (Main.pathJoin "dl" ("TEMP." ++ "attABCDEFGHIJKLMN")) = none) :=
  ⟨(downloadAttachment_atomic ⟨"L", "attABCDEFGHIJKLMN", 2⟩ "dl" "attABCDEFGHIJKLMN"
      ⟨Except.ok ([7, 9], true), true, true, true⟩ [] rfl rfl).1,
   (downloadAttachment_atomic ⟨"L", "attABCDEFGHIJKLMN", 2⟩ "dl" "attABCDEFGHIJKLMN"
      ⟨Except.ok ([7], false), true, true, true⟩ [] rfl rfl).2⟩

/-- Step equation: an attachment whose identifier fails the re-check makes
the loop panic. -/
theorem downloadLoop_cons_panic (env : Main.DLEnv) (dir : String)
    (attachment : Main.Attachment) (rest : List Main.Attachment) (fs : Main.FS)
    (hid : Api.IsAirTableId attachment.Id = false) :
    Main.downloadLoop env dir (attachment :: rest) fs =
      (Except.error "panic: invalid attachment ID format; should have been checked earlier",
        fs, []) := by
  simp [Main.downloadLoop, hid]

/-- Step equation: a stat error other than not-exists is returned as is. -/
theorem downloadLoop_cons_statErr (env : Main.DLEnv) (dir : String)
    (attachment : Main.Attachment) (rest : List Main.Attachment) (fs : Main.FS) (e : String)
    (hid : Api.IsAirTableId attachment.Id = true)
    (hstat : env.statErr (Main.pathJoin dir attachment.Id) = some e) :
    Main.downloadLoop env dir (attachment :: rest) fs = (Except.error e, fs, []) := by
  simp [Main.downloadLoop, hid, hstat]

/-- Step equation: an absent file triggers a download; a failing download
aborts the loop with the download's error and file-system effect. -/
theorem downloadLoop_cons_dl_err (env : Main.DLEnv) (dir : String)
    (attachment : Main.Attachment) (rest : List Main.Attachment) (fs fs2 : Main.FS) (e : String)
    (hid : Api.IsAirTableId attachment.Id = true)
    (hstat : env.statErr (Main.pathJoin dir attachment.Id) = none)
    (hlook : Main.fsLookup fs (Main.pathJoin dir attachment.Id) = none)
    (hdl : Main.DownloadAttachment attachment dir attachment.Id
      (env.worldOf attachment.Link) fs = (Except.error e, fs2)) :
    Main.downloadLoop env dir (attachment :: rest) fs =
      (Except.error e, fs2, [attachment.Id]) := by
  simp [Main.downloadLoop, hid, hstat, hlook, hdl]

/-- Step equation: an absent file triggers a download; after a successful
download the loop continues on the updated file system, logging the
identifier. -/
theorem downloadLoop_cons_dl_ok (env : Main.DLEnv) (dir : String)
    (attachment : Main.Attachment) (rest : List Main.Attachment) (fs fs2 : Main.FS)
    (hid : Api.IsAirTableId attachment.Id = true)
    (hstat : env.statErr (Main.pathJoin dir attachment.Id) = none)
    (hlook : Main.fsLookup fs (Main.pathJoin dir attachment.Id) = none)
    (hdl : Main.DownloadAttachment attachment dir attachment.Id
      (env.worldOf attachment.Link) fs = (Except.ok (), fs2)) :
    Main.downloadLoop env dir (attachment :: rest) fs =
      ((Main.downloadLoop env dir rest fs2).1, (Main.downloadLoop env dir rest fs2).2.1,
        attachment.Id :: (Main.downloadLoop env dir rest fs2).2.2) := by
  simp [Main.downloadLoop, hid, hstat, hlook, hdl]

/-- Step equation: an existing file with exactly the declared size is
skipped with no download. -/
theorem downloadLoop_cons_skip (env : Main.DLEnv) (dir : String)
    (attachment : Main.Attachment) (rest : List Main.Attachment) (fs : Main.FS)
    (contents : List Nat)
    (hid : Api.IsAirTableId attachment.Id = true)
    (hstat : env.statErr (Main.pathJoin dir attachment.Id) = none)
    (hlook : Main.fsLookup fs (Main.pathJoin dir attachment.Id) = some contents)
    (hsz : (contents.length : Int) = attachment.Size) :
    Main.downloadLoop env dir (attachment :: rest) fs = Main.downloadLoop env dir rest fs := by
  simp [Main.downloadLoop, hid, hstat, hlook, hsz]

/-- Step equation: an existing file with a size differing from the declared
size is a fatal error, with no download and no overwrite. -/
theorem downloadLoop_cons_mismatch (env : Main.DLEnv) (dir : String)
    (attachment : Main.Attachment) (rest : List Main.Attachment) (fs : Main.FS)
    (contents : List Nat)
    (hid : Api.IsAirTableId attachment.Id = true)
    (hstat : env.statErr (Main.pathJoin dir attachment.Id) = none)
    (hlook : Main.fsLookup fs (Main.pathJoin dir attachment.Id) = some contents)
    (hsz : (contents.length : Int) ≠ attachment.Size) :
    Main.downloadLoop env dir (attachment :: rest) fs =
      (Except.error "invalid size for already-downloaded attachment", fs, []) := by
  simp [Main.downloadLoop, hid, hstat, hlook, hsz]

/-- C5: for an attachment processed by the `DownloadAttachments` loop, if a
file already exists at `targetDir/<identifier>`: an exact size match means
the attachment is skipped — the loop result is exactly that of the
remaining attachments, with no download and no file-system change for this
entry; a size mismatch is a fatal error that leaves the file system
untouched (no re-download, no overwrite) and aborts the loop so the
remaining attachments are not attempted; and a stat error other than
not-exists is fatal and propagated unchanged, likewise aborting the
loop. -/
theorem downloadAttachments_existing_file_rules (env : Main.DLEnv) (dir : String)
    (attachment : Main.Attachment) (rest : List Main.Attachment) (fs : Main.FS)
    (hid : Api.IsAirTableId attachment.Id = true) :
    (∀ contents, env.statErr (Main.pathJoin dir attachment.Id) = none →
      Main.fsLookup fs (Main.pathJoin dir attachment.Id) = some contents →
      (((contents.length : Int) = attachment.Size →
        Main.downloadLoop env dir (attachment :: rest) fs =
          Main.downloadLoop env dir rest fs)
      ∧ ((contents.length : Int) ≠ attachment.Size →
        Main.downloadLoop env dir (attachment :: rest) fs =
          (Except.error "invalid size for already-downloaded attachment", fs, []))))
    ∧ (∀ e, env.statErr (Main.pathJoin dir attachment.Id) = some e →
      Main.downloadLoop env dir (attachment :: rest) fs = (Except.error e, fs, [])) :=
  ⟨fun contents hstat hlook =>
    ⟨fun hsz => downloadLoop_cons_skip env dir attachment rest fs contents hid hstat hlook hsz,
     fun hsz =>
       downloadLoop_cons_mismatch env dir attachment rest fs contents hid hstat hlook hsz⟩,
   fun e hstat => downloadLoop_cons_statErr env dir attachment rest fs e hid hstat⟩

/-- Witness for C5 at a concrete input: with a one-byte file already
present under the attachment's identifier and a declared size of 1, the
loop skips the attachment (its result is that of the empty remainder). -/
theorem downloadAttachments_existing_file_rules_witness :
    Main.downloadLoop
      ⟨fun _ => ⟨Except.error "unused", true, true, true⟩, fun _ => none, true⟩ "dl"
      [⟨"L", "attABCDEFGHIJKLMN", 1⟩]
      [(Main.pathJoin "dl" "attABCDEFGHIJKLMN", [7])] =
    Main.downloadLoop
      ⟨fun _ => ⟨Except.error "unused", true, true, true⟩, fun _ => none, true⟩ "dl" []
      [(Main.pathJoin "dl" "attABCDEFGHIJKLMN", [7])] :=
  ((downloadAttachments_existing_file_rules
      ⟨fun _ => ⟨Except.error "unused", true, true, true⟩, fun _ => none, true⟩ "dl"
      ⟨"L", "attABCDEFGHIJKLMN", 1⟩ []
      [(Main.pathJoin "dl" "attABCDEFGHIJKLMN", [7])] rfl).1 [7] rfl rfl).1 rfl

/-- Outcome shapes of one `DownloadAttachment` call: either it succeeds,
the file system gaining exactly the final file with the delivered body
(whose length is the declared size) and losing the temp file, or it fails
with the file system either untouched or having gone through the
temp-write-then-cleanup cycle. -/
theorem downloadAttachment_outcome (attachment : Main.Attachment) (dir fn : String)
    (w : Main.DLWorld) (fs : Main.FS) :
    (∃ body, Main.DownloadAttachment attachment dir fn w fs =
        (Except.ok (),
          Main.fsErase
            (Main.fsWrite (Main.fsWrite fs (Main.pathJoin dir ("TEMP." ++ fn)) body)
              (Main.pathJoin dir fn) body)
            (Main.pathJoin dir ("TEMP." ++ fn))) ∧
      (body.length : Int) = attachment.Size) ∨
    (∃ e, (Main.DownloadAttachment attachment dir fn w fs).1 = Except.error e ∧
      ((Main.DownloadAttachment attachment dir fn w fs).2 = fs ∨
       ∃ body, (Main.DownloadAttachment attachment dir fn w fs).2 =
         Main.fsErase (Main.fsWrite fs (Main.pathJoin dir ("TEMP." ++ fn)) body)
           (Main.pathJoin dir ("TEMP." ++ fn)))) := by
  cases hg : w.getResult with
  | error e =>
    have hres : Main.DownloadAttachment attachment dir fn w fs = (Except.error e, fs) := by
      unfold Main.DownloadAttachment
      rw [hg]
    rw [hres]
    exact Or.inr ⟨e, rfl, Or.inl rfl⟩
  | ok bc =>
    obtain ⟨body, clean⟩ := bc
    cases hc : w.createOk with
    | false =>
      have hres : Main.DownloadAttachment attachment dir fn w fs =
          (Except.error "create failed", fs) := by
        unfold Main.DownloadAttachment
        rw [hg]
        simp [hc]
      rw [hres]
      exact Or.inr ⟨_, rfl, Or.inl rfl⟩
    | true =>
      cases clean with
      | false =>
        have hres : Main.DownloadAttachment attachment dir fn w fs =
            (Except.error "transport error while copying body",
              Main.fsErase (Main.fsWrite fs (Main.pathJoin dir ("TEMP." ++ fn)) body)
                (Main.pathJoin dir ("TEMP." ++ fn))) := by
          unfold Main.DownloadAttachment
          rw [hg]
          simp [hc]
        rw [hres]
        exact Or.inr ⟨_, rfl, Or.inr ⟨body, rfl⟩⟩
      | true =>
        by_cases hsz : (body.length : Int) = attachment.Size
        · cases hcl : w.closeOk with
          | false =>
            have hres : Main.DownloadAttachment attachment dir fn w fs =
                (Except.error "close failed",
                  Main.fsErase (Main.fsWrite fs (Main.pathJoin dir ("TEMP." ++ fn)) body)
                    (Main.pathJoin dir ("TEMP." ++ fn))) := by
              unfold Main.DownloadAttachment
              rw [hg]
              simp [hc, hcl, hsz]
            rw [hres]
            exact Or.inr ⟨_, rfl, Or.inr ⟨body, rfl⟩⟩
          | true =>
            cases hr : w.renameOk with
            | false =>
              have hres : Main.DownloadAttachment attachment dir fn w fs =
                  (Except.error "rename failed",
                    Main.fsErase (Main.fsWrite fs (Main.pathJoin dir ("TEMP." ++ fn)) body)
                      (Main.pathJoin dir ("TEMP." ++ fn))) := by
                unfold Main.DownloadAttachment
                rw [hg]
                simp [hc, hcl, hr, hsz]
              rw [hres]
              exact Or.inr ⟨_, rfl, Or.inr ⟨body, rfl⟩⟩
            | true =>
              have hres : Main.DownloadAttachment attachment dir fn w fs =
                  (Except.ok (),
                    Main.fsErase
                      (Main.fsWrite (Main.fsWrite fs (Main.pathJoin dir ("TEMP." ++ fn)) body)
                        (Main.pathJoin dir fn) body)
                      (Main.pathJoin dir ("TEMP." ++ fn))) := by
                unfold Main.DownloadAttachment
                rw [hg]
                simp [hc, hcl, hr, hsz]
              exact Or.inl ⟨body, hres, hsz⟩
        · have hres : Main.DownloadAttachment attachment dir fn w fs =
              (Except.error
                  "mismatch on download: received byte count differs from declared size",
                Main.fsErase (Main.fsWrite fs (Main.pathJoin dir ("TEMP." ++ fn)) body)
                  (Main.pathJoin dir ("TEMP." ++ fn))) := by
            unfold Main.DownloadAttachment
            rw [hg]
            simp [hc, hsz]
          rw [hres]
          exact Or.inr ⟨_, rfl, Or.inr ⟨body, rfl⟩⟩

/-- A path different from both the final and the temp path of a download is
untouched by `DownloadAttachment`. -/
theorem downloadAttachment_preserves (attachment : Main.Attachment) (dir fn : String)
    (w : Main.DLWorld) (fs : Main.FS) (p : String) (c : List Nat)
    (hp1 : p ≠ Main.pathJoin dir fn) (hp2 : p ≠ Main.pathJoin dir ("TEMP." ++ fn))
    (h : Main.fsLookup fs p = some c) :
    Main.fsLookup (Main.DownloadAttachment attachment dir fn w fs).2 p = some c := by
  rcases downloadAttachment_outcome attachment dir fn w fs with
    ⟨body, heq, hlen⟩ | ⟨e, he, hshape | ⟨body, hshape⟩⟩
  · rw [heq]
    simp [fsLookup_fsErase, fsLookup_fsWrite, hp1, hp2, h]
  · rw [hshape]
    exact h
  · rw [hshape]
    simp [fsLookup_fsErase, fsLookup_fsWrite, hp2, h]

/-- If a path other than the temp path is absent after a
`DownloadAttachment` call, it was absent before the call. -/
theorem downloadAttachment_none_pullback (attachment : Main.Attachment) (dir fn : String)
    (w : Main.DLWorld) (fs : Main.FS) (p : String)
    (hp2 : p ≠ Main.pathJoin dir ("TEMP." ++ fn))
    (h : Main.fsLookup (Main.DownloadAttachment attachment dir fn w fs).2 p = none) :
    Main.fsLookup fs p = none := by
  rcases downloadAttachment_outcome attachment dir fn w fs with
    ⟨body, heq, hlen⟩ | ⟨e, he, hshape | ⟨body, hshape⟩⟩
  · rw [heq] at h
    simp only [fsLookup_fsErase, fsLookup_fsWrite, if_neg hp2] at h
    by_cases hpo : p = Main.pathJoin dir fn
    · rw [if_pos hpo] at h
      cases h
    · rwa [if_neg hpo] at h
  · rwa [hshape] at h
  · rw [hshape] at h
    simpa only [fsLookup_fsErase, fsLookup_fsWrite, if_neg hp2] using h

/-- A string accepted by `IsAirTableId` has length 17. -/
theorem isAirTableId_length (a : String) (h : Api.IsAirTableId a = true) : a.length = 17 := by
  unfold Api.IsAirTableId at h
  by_cases hl : a.length = 17
  · exact hl
  · simp [hl] at h

/-- The final path of a valid identifier is never the temp path of a valid
identifier (their lengths differ). -/
theorem validPath_ne_tempPath (dir a b : String) (ha : Api.IsAirTableId a = true)
    (hb : Api.IsAirTableId b = true) :
    Main.pathJoin dir a ≠ Main.pathJoin dir ("TEMP." ++ b) := by
  intro h
  have h2 := congrArg String.length h
  have ha17 := isAirTableId_length a ha
  have hb17 := isAirTableId_length b hb
  have h5 : ("TEMP." : String).length = 5 := rfl
  simp only [Main.pathJoin, String.length_append] at h2
  omega

/-- A file already stored under a valid identifier is never modified or
removed by the rest of the download loop. -/
theorem downloadLoop_preserves (env : Main.DLEnv) (dir : String)
    (l : List Main.Attachment) (fs : Main.FS) (id0 : String) (c : List Nat)
    (hid0 : Api.IsAirTableId id0 = true)
    (h : Main.fsLookup fs (Main.pathJoin dir id0) = some c) :
    Main.fsLookup (Main.downloadLoop env dir l fs).2.1 (Main.pathJoin dir id0) = some c := by
  induction l generalizing fs with
  | nil => exact h
  | cons a rest ih =>
    cases hid : Api.IsAirTableId a.Id with
    | false =>
      rw [downloadLoop_cons_panic env dir a rest fs hid]
      exact h
    | true =>
      cases hstat : env.statErr (Main.pathJoin dir a.Id) with
      | some e =>
        rw [downloadLoop_cons_statErr env dir a rest fs e hid hstat]
        exact h
      | none =>
        cases hlook : Main.fsLookup fs (Main.pathJoin dir a.Id) with
        | none =>
          have hpt : Main.pathJoin dir id0 ≠ Main.pathJoin dir a.Id := by
            intro hcon
            rw [hcon, hlook] at h
            cases h
          have hptemp : Main.pathJoin dir id0 ≠ Main.pathJoin dir ("TEMP." ++ a.Id) :=
            validPath_ne_tempPath dir id0 a.Id hid0 hid
          have hpres := downloadAttachment_preserves a dir a.Id (env.worldOf a.Link) fs
            (Main.pathJoin dir id0) c hpt hptemp h
          rcases hpair : Main.DownloadAttachment a dir a.Id (env.worldOf a.Link) fs with
            ⟨res, fs2⟩
          rw [hpair] at hpres
          cases res with
          | error e =>
            rw [downloadLoop_cons_dl_err env dir a rest fs fs2 e hid hstat hlook hpair]
            exact hpres
          | ok u =>
            cases u
            rw [downloadLoop_cons_dl_ok env dir a rest fs fs2 hid hstat hlook hpair]
            exact ih fs2 hpres
        | some contents =>
          by_cases hsz : (contents.length : Int) = a.Size
          · rw [downloadLoop_cons_skip env dir a rest fs contents hid hstat hlook hsz]
            exact ih fs h
          · rw [downloadLoop_cons_mismatch env dir a rest fs contents hid hstat hlook hsz]
            exact h

/-- After a successful run of the download loop, every processed attachment
has a valid identifier, a stat oracle reporting no error, and a file at its
final path whose size equals its declared size. -/
theorem downloadLoop_ok_invariant (env : Main.DLEnv) (dir : String)
    (l : List Main.Attachment) (fs : Main.FS)
    (h : (Main.downloadLoop env dir l fs).1 = Except.ok ()) :
    ∀ att ∈ l, Api.IsAirTableId att.Id = true ∧
      env.statErr (Main.pathJoin dir att.Id) = none ∧
      ∃ c, Main.fsLookup (Main.downloadLoop env dir l fs).2.1 (Main.pathJoin dir att.Id) =
          some c ∧ (c.length : Int) = att.Size := by
  induction l generalizing fs with
  | nil =>
    intro att hatt
    cases hatt
  | cons a rest ih =>
    intro att hatt
    cases hid : Api.IsAirTableId a.Id with
    | false =>
      rw [downloadLoop_cons_panic env dir a rest fs hid] at h
      cases h
    | true =>
      cases hstat : env.statErr (Main.pathJoin dir a.Id) with
      | some e =>
        rw [downloadLoop_cons_statErr env dir a rest fs e hid hstat] at h
        cases h
      | none =>
        cases hlook : Main.fsLookup fs (Main.pathJoin dir a.Id) with
        | none =>
          rcases hpair : Main.DownloadAttachment a dir a.Id (env.worldOf a.Link) fs with
            ⟨res, fs2⟩
          cases res with
          | error e =>
            rw [downloadLoop_cons_dl_err env dir a rest fs fs2 e hid hstat hlook hpair] at h
            cases h
          | ok u =>
            cases u
            rw [downloadLoop_cons_dl_ok env dir a rest fs fs2 hid hstat hlook hpair] at h ⊢
            rcases List.mem_cons.mp hatt with rfl | hmem
            · refine ⟨hid, hstat, ?_⟩
              rcases downloadAttachment_outcome att dir att.Id (env.worldOf att.Link) fs with
                ⟨body, heq, hlen⟩ | ⟨e, he, _⟩
              · have hfs2 : fs2 =
                    Main.fsErase
                      (Main.fsWrite
                        (Main.fsWrite fs (Main.pathJoin dir ("TEMP." ++ att.Id)) body)
                        (Main.pathJoin dir att.Id) body)
                      (Main.pathJoin dir ("TEMP." ++ att.Id)) := by
                  have h2 := hpair.symm.trans heq
                  exact ((Prod.mk.injEq _ _ _ _).mp h2).2
                have hbase : Main.fsLookup fs2 (Main.pathJoin dir att.Id) = some body := by
                  rw [hfs2]
                  have hne : Main.pathJoin dir att.Id ≠
                      Main.pathJoin dir ("TEMP." ++ att.Id) :=
                    validPath_ne_tempPath dir att.Id att.Id hid hid
                  simp [fsLookup_fsErase, fsLookup_fsWrite, hne]
                exact ⟨body,
                  downloadLoop_preserves env dir rest fs2 att.Id body hid hbase, hlen⟩
              · rw [hpair] at he
                cases he
            · exact ih fs2 h att hmem
        | some contents =>
          by_cases hsz : (contents.length : Int) = a.Size
          · rw [downloadLoop_cons_skip env dir a rest fs contents hid hstat hlook hsz] at h ⊢
            rcases List.mem_cons.mp hatt with rfl | hmem
            · exact ⟨hid, hstat, contents,
                downloadLoop_preserves env dir rest fs att.Id contents hid hlook, hsz⟩
            · exact ih fs h att hmem
          · rw [downloadLoop_cons_mismatch env dir a rest fs contents hid hstat hlook hsz] at h
            cases h

/-- If every attachment's file is already present with exactly its declared
size (and identifiers are valid and the stat oracle silent), the loop skips
every entry: no download, no file-system change. -/
theorem downloadLoop_all_present (env : Main.DLEnv) (dir : String)
    (l : List Main.Attachment) (fs : Main.FS)
    (h : ∀ att ∈ l, Api.IsAirTableId att.Id = true ∧
      env.statErr (Main.pathJoin dir att.Id) = none ∧
      ∃ c, Main.fsLookup fs (Main.pathJoin dir att.Id) = some c ∧
        (c.length : Int) = att.Size) :
    Main.downloadLoop env dir l fs = (Except.ok (), fs, []) := by
  induction l with
  | nil => rfl
  | cons a rest ih =>
    obtain ⟨hid, hstat, c, hlook, hsz⟩ := h a (List.mem_cons_self a rest)
    rw [downloadLoop_cons_skip env dir a rest fs c hid hstat hlook hsz]
    exact ih fun att hm => h att (List.mem_cons_of_mem _ hm)

/-- Every identifier in the loop's download log was absent from the file
system when the loop started, and no identifier is downloaded twice. -/
theorem downloadLoop_log (env : Main.DLEnv) (dir : String)
    (l : List Main.Attachment) (fs : Main.FS) :
    (∀ id0 ∈ (Main.downloadLoop env dir l fs).2.2, Api.IsAirTableId id0 = true ∧
      Main.fsLookup fs (Main.pathJoin dir id0) = none)
    ∧ ((Main.downloadLoop env dir l fs).2.2).Nodup := by
  induction l generalizing fs with
  | nil => exact ⟨fun id0 h0 => absurd h0 (by simp [Main.downloadLoop]), List.nodup_nil⟩
  | cons a rest ih =>
    cases hid : Api.IsAirTableId a.Id with
    | false =>
      rw [downloadLoop_cons_panic env dir a rest fs hid]
      exact ⟨fun id0 h0 => absurd h0 (by simp), List.nodup_nil⟩
    | true =>
      cases hstat : env.statErr (Main.pathJoin dir a.Id) with
      | some e =>
        rw [downloadLoop_cons_statErr env dir a rest fs e hid hstat]
        exact ⟨fun id0 h0 => absurd h0 (by simp), List.nodup_nil⟩
      | none =>
        cases hlook : Main.fsLookup fs (Main.pathJoin dir a.Id) with
        | none =>
          rcases hpair : Main.DownloadAttachment a dir a.Id (env.worldOf a.Link) fs with
            ⟨res, fs2⟩
          cases res with
          | error e =>
            rw [downloadLoop_cons_dl_err env dir a rest fs fs2 e hid hstat hlook hpair]
            refine ⟨fun id0 h0 => ?_, List.nodup_singleton _⟩
            rcases List.mem_singleton.mp h0 with rfl
            exact ⟨hid, hlook⟩
          | ok u =>
            cases u
            rw [downloadLoop_cons_dl_ok env dir a rest fs fs2 hid hstat hlook hpair]
            have hfile : Main.fsLookup fs2 (Main.pathJoin dir a.Id) ≠ none := by
              rcases downloadAttachment_outcome a dir a.Id (env.worldOf a.Link) fs with
                ⟨body, heq, hlen⟩ | ⟨e, he, _⟩
              · have hfs2 : fs2 =
                    Main.fsErase
                      (Main.fsWrite (Main.fsWrite fs (Main.pathJoin dir ("TEMP." ++ a.Id)) body)
                        (Main.pathJoin dir a.Id) body)
                      (Main.pathJoin dir ("TEMP." ++ a.Id)) := by
                  have h2 := hpair.symm.trans heq
                  exact ((Prod.mk.injEq _ _ _ _).mp h2).2
                rw [hfs2]
                have hne : Main.pathJoin dir a.Id ≠ Main.pathJoin dir ("TEMP." ++ a.Id) :=
                  validPath_ne_tempPath dir a.Id a.Id hid hid
                simp [fsLookup_fsErase, fsLookup_fsWrite, hne]
              · rw [hpair] at he
                cases he
            constructor
            · intro id0 h0
              rcases List.mem_cons.mp h0 with rfl | hmem
              · exact ⟨hid, hlook⟩
              · obtain ⟨hv, hnone2⟩ := (ih fs2).1 id0 hmem
                refine ⟨hv, ?_⟩
                have hptemp : Main.pathJoin dir id0 ≠ Main.pathJoin dir ("TEMP." ++ a.Id) :=
                  validPath_ne_tempPath dir id0 a.Id hv hid
                have := downloadAttachment_none_pullback a dir a.Id (env.worldOf a.Link) fs
                  (Main.pathJoin dir id0) hptemp
                rw [hpair] at this
                exact this hnone2
            · refine List.Nodup.cons ?_ (ih fs2).2
              intro hmem
              obtain ⟨hv, hnone2⟩ := (ih fs2).1 a.Id hmem
              exact hfile hnone2
        | some contents =>
          by_cases hsz : (contents.length : Int) = a.Size
          · rw [downloadLoop_cons_skip env dir a rest fs contents hid hstat hlook hsz]
            exact ih fs
          · rw [downloadLoop_cons_mismatch env dir a rest fs contents hid hstat hlook hsz]
            exact ⟨fun id0 h0 => absurd h0 (by simp), List.nodup_nil⟩

/-- C3: `DownloadAttachments` is idempotent.  If a run succeeds, producing
file system `fs1` and download log `log1`, then a second run with the same
attachment list and environment and no external file-system changes
performs zero network downloads (its log is empty; every entry is skipped
by the exists-with-matching-size check), succeeds, and leaves every file's
contents byte-identical (the file system is returned unchanged); moreover
`log1` has no duplicates, so each distinct identifier was downloaded at
most once across the two runs. -/
theorem downloadAttachments_idempotent (env : Main.DLEnv)
    (attachments : List Main.Attachment) (dir : String) (fs fs1 : Main.FS)
    (log1 : List String)
    (h : Main.DownloadAttachments env attachments dir fs = (Except.ok (), fs1, log1)) :
    Main.DownloadAttachments env attachments dir fs1 = (Except.ok (), fs1, []) ∧
      log1.Nodup := by
  unfold Main.DownloadAttachments at h ⊢
  cases hdir : env.dirOk with
  | false =>
    rw [hdir] at h
    simp at h
  | true =>
    rw [hdir] at h
    rw [if_neg (by simp : ¬((!true) = true))] at h ⊢
    have h1 : (Main.downloadLoop env dir (attachments.mergeSort fun a b => a.Id ≤ b.Id) fs).1 =
        Except.ok () := by rw [h]
    have hfs : (Main.downloadLoop env dir (attachments.mergeSort fun a b => a.Id ≤ b.Id)
        fs).2.1 = fs1 := by rw [h]
    have hlog : (Main.downloadLoop env dir (attachments.mergeSort fun a b => a.Id ≤ b.Id)
        fs).2.2 = log1 := by rw [h]
    have hinv := downloadLoop_ok_invariant env dir
      (attachments.mergeSort fun a b => a.Id ≤ b.Id) fs h1
    constructor
    · apply downloadLoop_all_present
      intro att hatt
      obtain ⟨hid, hstat, c, hc, hsz⟩ := hinv att hatt
      rw [hfs] at hc
      exact ⟨hid, hstat, c, hc, hsz⟩
    · rw [← hlog]
      exact (downloadLoop_log env dir (attachments.mergeSort fun a b => a.Id ≤ b.Id) fs).2

/-- Witness for C3 at a concrete input: one attachment downloaded into an
empty directory on the first run; the second run downloads nothing and
returns the same file system, and the first run's log is duplicate-free. -/
theorem downloadAttachments_idempotent_witness :
    Main.DownloadAttachments
      ⟨fun _ => ⟨Except.ok ([7], true), true, true, true⟩, fun _ => none, true⟩
      [⟨"L", "attABCDEFGHIJKLMN", 1⟩] "dl"
      [(Main.pathJoin "dl" "attABCDEFGHIJKLMN", [7])] =
      (Except.ok (), [(Main.pathJoin "dl" "attABCDEFGHIJKLMN", [7])], []) ∧
    (["attABCDEFGHIJKLMN"] : List String).Nodup := by
  have hrun : Main.DownloadAttachments
      ⟨fun _ => ⟨Except.ok ([7], true), true, true, true⟩, fun _ => none, true⟩
      [⟨"L", "attABCDEFGHIJKLMN", 1⟩] "dl" [] =
      (Except.ok (), [(Main.pathJoin "dl" "attABCDEFGHIJKLMN", [7])],
        ["attABCDEFGHIJKLMN"]) := by
    unfold Main.DownloadAttachments
    rw [if_neg (by simp : ¬((!true) = true)), List.mergeSort_singleton]
    rfl
  exact downloadAttachments_idempotent
    ⟨fun _ => ⟨Except.ok ([7], true), true, true, true⟩, fun _ => none, true⟩
    [⟨"L", "attABCDEFGHIJKLMN", 1⟩] "dl" []
    [(Main.pathJoin "dl" "attABCDEFGHIJKLMN", [7])] ["attABCDEFGHIJKLMN"] hrun
